import Mathlib

/-!
Shallow embedding of the action-invocation pipeline of
`st2client/st2client/commands/action.py` (class `ActionRunCommand`):
parameter-schema merging (`_get_params_types`), value transformation
(`transformer` / `normalize`), CLI token parsing and the file-parameter
handling inside `run`, execution submission and status polling, and the
help-renderer parameter sort (`_sort_parameters`).

Python dictionaries are modelled as association lists (first binding of a
key wins on lookup, assignment replaces the first binding in place or
appends), Python values as the inductive `PyValue`, fallible Python code as
`Except String` carrying the exception message, and the filesystem and the
execution-manager collaborator as explicit records of functions / response
traces.  The code targets Python 2 (it uses `args.async`, a Python-3
keyword), so stdlib behaviour such as `ast.literal_eval`'s
`malformed string` error message is modelled after CPython 2.7.
-/

set_option autoImplicit false

namespace St2

/-- Model of the Python values the pipeline produces: scalars, raw file
bytes, and lists of strings (the only list shape the `array` transformer
produces).  Floats are modelled as exact decimals `num / den`; no verified
property depends on IEEE rounding. -/
inductive PyValue : Type where
  | PyNone : PyValue
  | PyBool : Bool → PyValue
  | PyInt : Int → PyValue
  | PyFloat : Int → Nat → PyValue
  | PyStr : String → PyValue
  | PyBytes : List Nat → PyValue
  | PyStrList : List String → PyValue
  deriving DecidableEq, Repr

open PyValue

/-- Python truthiness (`if value:`) for the modelled values. -/
def pyTruthy : PyValue → Bool
  | PyNone => false
  | PyBool b => b
  | PyInt n => n != 0
  | PyFloat n _ => n != 0
  | PyStr s => s != ""
  | PyBytes bs => bs != []
  | PyStrList l => l != []

/-! ### Association-list model of Python dicts -/

/-- `d.get(k)` / `d[k]`: value of the first binding of `k`, if any. -/
def aget {α : Type} : List (String × α) → String → Option α
  | [], _ => none
  | (k', v) :: t, k => if k' = k then some v else aget t k

/-- `d.get(k, dflt)`. -/
def agetD {α : Type} (d : List (String × α)) (k : String) (dflt : α) : α :=
  (aget d k).getD dflt

/-- `d[k] = v`: replace the first binding of `k` in place, else append. -/
def aset {α : Type} : List (String × α) → String → α → List (String × α)
  | [], k, v => [(k, v)]
  | (k', v') :: t, k, v =>
    if k' = k then (k, v) :: t else (k', v') :: aset t k v

/-- `k in d`. -/
def amem {α : Type} (d : List (String × α)) (k : String) : Bool :=
  (aget d k).isSome

/-- `del d[k]`: remove the first binding of `k`. -/
def adel {α : Type} : List (String × α) → String → List (String × α)
  | [], _ => []
  | (k', v') :: t, k => if k' = k then t else (k', v') :: adel t k

/-- `d.keys()` (with multiplicity; the dicts built by the model keep keys
distinct). -/
def akeys {α : Type} (d : List (String × α)) : List String :=
  d.map Prod.fst

/-- A parameter-metadata dict (one schema entry), e.g.
`{"type": "boolean", "immutable": True}`. -/
def Dict : Type := List (String × PyValue)

/-- A parameter schema: dict from parameter name to metadata dict
(`runner.runner_parameters` / `action.parameters`). -/
def Schema : Type := List (String × Dict)

instance : DecidableEq Dict := by unfold Dict; infer_instance
instance : DecidableEq Schema := by unfold Schema; infer_instance

/-- `base.update(upd)` on dicts (used for the schema merge). -/
def dictUpdate : Schema → Schema → Schema
  | base, [] => base
  | base, (k, v) :: t => dictUpdate (aset base k v) t

/-! ### String helpers mirroring the Python string operations -/

/-- `needle in hay` on lists of characters (substring test). -/
def listIsSubstr (n : List Char) : List Char → Bool
  | [] => n.isEmpty
  | c :: t => if n.isPrefixOf (c :: t) then true else listIsSubstr n t

/-- Python `needle in hay` for strings. -/
def strContains (needle hay : String) : Bool :=
  listIsSubstr needle.data hay.data

/-- Python `s.startswith(pre)`. -/
def pyStartswith (pre s : String) : Bool :=
  pre.data.isPrefixOf s.data

/-- Python `s.split('=', 1)` for a string known to contain `'='`:
the part before the first `'='` and the part after it. -/
def splitEq (s : String) : String × String :=
  (String.mk (s.data.takeWhile (fun c => c != '=')),
   String.mk ((s.data.dropWhile (fun c => c != '=')).tail)

)

/-- Characters Python 2 `str.strip()` removes. -/
def isPySpace (c : Char) : Bool :=
  c == ' ' || c == '\t' || c == '\n' || c == '\r' || c == '\x0b' || c == '\x0c'

/-- Python `s.strip()`. -/
def pyStrip (s : String) : String :=
  String.mk (((s.data.dropWhile isPySpace).reverse.dropWhile isPySpace).reverse)

/-- Python `s.split(sep)` on lists of characters. -/
def splitCharList (sep : Char) : List Char → List (List Char)
  | [] => [[]]
  | c :: t =>
    let r := splitCharList sep t
    if c == sep then [] :: r
    else
      match r with
      | h :: t' => (c :: h) :: t'
      | [] => [[c]]

/-- Python `s.split(sep)` (a single-character separator). -/
def pySplitChar (sep : Char) (s : String) : List String :=
  (splitCharList sep s.data).map String.mk

/-- Python `s.capitalize()`: upper-case the first character, lower-case the
rest. -/
def pyCapitalize (s : String) : String :=
  match s.data with
  | [] => s
  | c :: t => String.mk (c.toUpper :: t.map Char.toLower)

/-- Python `s.lower()`. -/
def pyLower (s : String) : String :=
  String.mk (s.data.map Char.toLower)

/-- `' '.join(tokens)`. -/
def strJoinSpace (l : List String) : String :=
  String.intercalate " " l

/-- `os.path.basename`: everything after the last `'/'`. -/
def pyBasename (p : String) : String :=
  String.mk ((p.data.reverse.takeWhile (fun c => c != '/')).reverse)

/-- `os.path.join(a, b)` (POSIX, two arguments). -/
def pyJoin (a b : String) : String :=
  if pyStartswith "/" b then b
  else if a == "" || a.data.getLast? == some '/' then a ++ b
  else a ++ "/" ++ b

/-- `os.path.normpath` (POSIX). -/
def pyNormpath (p : String) : String :=
  if p = "" then "." else
  let slashes : Nat :=
    if pyStartswith "/" p then
      (if pyStartswith "//" p && !(pyStartswith "///" p) then 2 else 1)
    else 0
  let comps := pySplitChar '/' p
  let newComps := comps.foldl (fun acc comp =>
    if comp = "" || comp = "." then acc
    else if comp ≠ ".." || (slashes == 0 && acc = []) ||
            (acc ≠ [] && acc.getLast? = some "..") then acc ++ [comp]
    else if acc ≠ [] then acc.dropLast else acc) []
  let joined := String.intercalate "/" newComps
  let prefixed :=
    (if slashes == 1 then "/" else if slashes == 2 then "//" else "") ++ joined
  if prefixed = "" then "." else prefixed

/-- `os.path.normpath(pjoin(os.getcwd(), v))` with the working directory
made explicit. -/
def resolvePath (cwd v : String) : String :=
  pyNormpath (pyJoin cwd v)

/-! ### Numeric / literal parsers mirroring the Python 2 stdlib calls -/

/-- Digits of a character list folded into a natural number
(`none` if empty or a non-digit appears). -/
def digitsToNat : List Char → Option Nat
  | [] => none
  | ds =>
    if ds.all Char.isDigit then
      some (ds.foldl (fun acc c => acc * 10 + (c.toNat - '0'.toNat)) 0)
    else none

/-- `int(s)` after stripping: optional sign, then base-10 digits. -/
def parseIntOpt (s : String) : Option Int :=
  match s.data with
  | '-' :: ds => (digitsToNat ds).map (fun n => -(n : Int))
  | '+' :: ds => (digitsToNat ds).map (fun n => (n : Int))
  | ds => (digitsToNat ds).map (fun n => (n : Int))

/-- `float(s)` after stripping: optional sign, digits with an optional
fractional part.  Exponents / `inf` / `nan` are outside the modelled
subset; no verified property evaluates them.  Returns `(num, den)` with
the exact decimal value `num / den`. -/
def parseFloatOpt (s : String) : Option (Int × Nat) :=
  let core : List Char → Option (Nat × Nat) := fun ds =>
    let ip := ds.takeWhile Char.isDigit
    let rest := ds.dropWhile Char.isDigit
    match rest with
    | [] => (digitsToNat ip).map (fun n => (n, 1))
    | '.' :: fp =>
      if fp.all Char.isDigit && (ip ≠ [] || fp ≠ []) then
        let ipv := (digitsToNat ip).getD 0
        let fpv := (digitsToNat fp).getD 0
        some (ipv * 10 ^ fp.length + fpv, 10 ^ fp.length)
      else none
    | _ => none
  match s.data with
  | '-' :: ds => (core ds).map (fun p => (-(p.1 : Int), p.2))
  | '+' :: ds => (core ds).map (fun p => ((p.1 : Int), p.2))
  | ds => (core ds).map (fun p => ((p.1 : Int), p.2))

/-- `int(x)` (Python 2): strip whitespace, parse an optionally signed
base-10 literal; otherwise `ValueError`. -/
def pyInt (x : String) : Except String PyValue :=
  match parseIntOpt (pyStrip x) with
  | some n => .ok (PyInt n)
  | none =>
    .error ("invalid literal for int() with base 10: \x27" ++ x ++ "\x27")

/-- `float(x)` (Python 2): strip whitespace, parse an optionally signed
decimal literal; otherwise `ValueError`. -/
def pyFloat (x : String) : Except String PyValue :=
  match parseFloatOpt (pyStrip x) with
  | some p => .ok (PyFloat p.1 p.2)
  | none => .error ("could not convert string to float: " ++ x)

/-- A Python identifier (a bare `Name` node after parsing). -/
def isPyIdent (s : String) : Bool :=
  match s.data with
  | [] => false
  | c :: t => (c.isAlpha || c == '_') && t.all (fun d => d.isAlphanum || d == '_')

/-- A quoted string literal without escapes or embedded quotes (the subset
of Python string literals the model evaluates). -/
def strLitInner (s : String) : Option String :=
  match s.data with
  | [] => none
  | q :: t =>
    if (q == '\x27' || q == '"') && t.getLast? == some q &&
        (t.dropLast.all (fun c => c != q && c != '\\')) then
      some (String.mk t.dropLast)
    else none

/-- `ast.literal_eval(s)` as CPython 2.7 behaves on the inputs the boolean
transformer can produce: the safe names `True`/`False`/`None`, numeric
literals, simple string literals; any other bare name is rejected with
`ValueError('malformed string')`, anything unparsable with a
`SyntaxError` whose message does not contain `malformed string`. -/
def pyLiteralEval (s : String) : Except String PyValue :=
  let t := pyStrip s
  if t == "True" then .ok (PyBool true)
  else if t == "False" then .ok (PyBool false)
  else if t == "None" then .ok PyNone
  else
    match parseIntOpt t with
    | some n => .ok (PyInt n)
    | none =>
      match parseFloatOpt t with
      | some p => .ok (PyFloat p.1 p.2)
      | none =>
        match strLitInner t with
        | some inner => .ok (PyStr inner)
        | none =>
          if isPyIdent t then .error "malformed string"
          else .error "invalid syntax (<unknown>, line 1)"

/-- `json.loads(s)` restricted to scalar JSON documents; no verified
property evaluates the `object` transformer on structured input.  The
error message matches Python 2's `json` module. -/
def jsonLoads (s : String) : Except String PyValue :=
  let t := pyStrip s
  if t == "true" then .ok (PyBool true)
  else if t == "false" then .ok (PyBool false)
  else if t == "null" then .ok PyNone
  else
    match parseIntOpt t with
    | some n => .ok (PyInt n)
    | none => .error "No JSON object could be decoded"

/-! ### The transformer table and `normalize` -/

/-- The keys of the `transformer` dict in `ActionRunCommand.run`. -/
def knownType (t : String) : Bool :=
  t == "array" || t == "boolean" || t == "integer" || t == "number" ||
  t == "object" || t == "string"

/-- `transformer[t](x)`: apply the type-keyed coercion from the
`transformer` dict. -/
def applyTransformer (t : String) (x : String) : Except String PyValue :=
  if t == "array" then
    .ok (PyStrList ((pySplitChar ',' x).map pyStrip))
  else if t == "boolean" then pyLiteralEval (pyCapitalize x)
  else if t == "integer" then pyInt x
  else if t == "number" then pyFloat x
  else if t == "object" then jsonLoads x
  else .ok (PyStr x)

/-- `'type' in param and param['type'] in transformer`: the declared type
of a schema entry when it is one of the transformer keys. -/
def metaKnownType (meta : Dict) : Option String :=
  match aget meta "type" with
  | some (PyStr t) => if knownType t then some t else none
  | _ => none

/-- The type a schema declares for a name, when it declares a known one. -/
def declaredType (s : Schema) (n : String) : Option String :=
  (aget s n).bind metaKnownType

/-- The runner-type record as `run` uses it. -/
structure RunnerType : Type where
  runner_parameters : Schema
  required_parameters : List String
  deriving DecidableEq

/-- The action record as `run` uses it. -/
structure Action : Type where
  pack : String
  name : String
  parameters : Schema
  required_parameters : List String
  deriving DecidableEq

/-- The action-schema half of `normalize` (reached when the runner schema
does not resolve a known type for the name). -/
def normalizeFromAction (action : Action) (name value : String) :
    Except String PyValue :=
  match aget action.parameters name with
  | some param =>
    match metaKnownType param with
    | some t => applyTransformer t value
    | none => .ok (PyStr value)
  | none => .ok (PyStr value)

/-- `normalize(name, value)` from `ActionRunCommand.run`: runner-declared
type first, then action-declared type, else the unmodified string. -/
def normalize (runner : RunnerType) (action : Action) (name value : String) :
    Except String PyValue :=
  match aget runner.runner_parameters name with
  | some param =>
    match metaKnownType param with
    | some t => applyTransformer t value
    | none => normalizeFromAction action name value
  | none => normalizeFromAction action name value

/-! ### Filesystem, token processing and the post-pass of `run` -/

/-- The filesystem as the `os.path` checks and `open(...).read()` see it. -/
structure FileSys : Type where
  pathExists : String → Bool
  isfile : String → Bool
  content : String → List Nat

/-- `ValueError` message of `read_file` for a missing path. -/
def fileNotExistMsg (p : String) : String :=
  "File \"" ++ p ++ "\" doesn\x27t exist"

/-- `ValueError` message of `read_file` for a path that is not a regular
file. -/
def notAFileMsg (p : String) : String :=
  "\"" ++ p ++ "\" is not a file"

/-- `read_file(file_path)` from `ActionRunCommand.run`. -/
def readFile (fs : FileSys) (file_path : String) : Except String (List Nat) :=
  if fs.pathExists file_path = false then .error (fileNotExistMsg file_path)
  else if fs.isfile file_path = false then .error (notAFileMsg file_path)
  else .ok (fs.content file_path)

/-- The replacement message the per-token `except` block substitutes for a
boolean-coercion failure. -/
def booleanHintMsg : String :=
  "Invalid value for boolean parameter. Valid values are: true, false"

/-- The per-token `except Exception` block of `run`: an exception whose
text contains `malformed string` is replaced by `booleanHintMsg`, any
other exception is re-raised unchanged. -/
def wrapMalformed {α : Type} : Except String α → Except String α
  | .ok a => .ok a
  | .error m =>
    .error (if strContains "malformed string" m then booleanHintMsg else m)

/-- The token loop of `run`: `'='`-bearing tokens are split and processed
(`@`-prefixed keys read a file into `_file_name` / `file_content`, others
go through `normalize`); the first token without `'='` collapses itself
and the remaining tokens into the single `cmd` parameter and stops the
scan. -/
def processTokens (runner : RunnerType) (action : Action) (fs : FileSys)
    (cwd : String) : List String → Dict → Except String Dict
  | [], d => .ok d
  | arg :: rest, d =>
    if strContains "=" arg then
      let kv := splitEq arg
      if pyStartswith "@" kv.1 then
        -- the stripped key `kv.1[1:]` is never used by the file branch
        let file_path := resolvePath cwd kv.2
        let file_name := pyBasename file_path
        match wrapMalformed (readFile fs file_path) with
        | .error m => .error m
        | .ok c =>
          processTokens runner action fs cwd rest
            (aset (aset d "_file_name" (PyStr file_name))
              "file_content" (PyBytes c))
      else
        match wrapMalformed (normalize runner action kv.1 kv.2) with
        | .error m => .error m
        | .ok val => processTokens runner action fs cwd rest (aset d kv.1 val)
    else .ok (aset d "cmd" (PyStr (strJoinSpace (arg :: rest))))

/-- The post-pass of `run` after the token loop: when a file was staged,
default `method` to `POST`, default `file_name` to the staged
`_file_name`, and delete the staging key.  Reading or deleting a missing
`_file_name` raises `KeyError` (uncaught in the source). -/
def postPass (d : Dict) : Except String Dict :=
  if amem d "file_content" then
    let d1 := if amem d "method" then d else aset d "method" (PyStr "POST")
    if amem d1 "file_name" then
      match aget d1 "_file_name" with
      | none => .error "KeyError: \x27_file_name\x27"
      | some _ => .ok (adel d1 "_file_name")
    else
      match aget d1 "_file_name" with
      | none => .error "KeyError: \x27_file_name\x27"
      | some fn => .ok (adel (aset d1 "file_name" fn) "_file_name")
  else .ok d

/-- Parameter resolution of `run`: the token loop starting from the empty
`execution.parameters` dict, followed by the post-pass. -/
def buildParameters (runner : RunnerType) (action : Action) (fs : FileSys)
    (cwd : String) (tokens : List String) : Except String Dict :=
  match processTokens runner action fs cwd tokens [] with
  | .error m => .error m
  | .ok d => postPass d

/-! ### Execution submission and the status poller -/

/-- An `ActionExecution` as `run` reads it: reference, parameters, id,
status and (possibly JSON-encoded) result. -/
structure Execution : Type where
  action : String
  parameters : Dict
  id : String
  status : String
  result : PyValue
  deriving DecidableEq

/-- The execution the client builds before submission (`models.ActionExecution()`
with `action` and `parameters` filled in; the other fields are unset until
the server responds). -/
def initialExecution (ref : String) (ps : Dict) : Execution :=
  { action := ref, parameters := ps, id := "", status := "", result := PyNone }

/-- The `ActionExecution` manager collaborator: `create` is the server's
response to a submission, `fetches` the successive `get_by_id` responses. -/
structure Manager : Type where
  create : Execution → Execution
  fetches : List Execution

/-- `status in {scheduled, running}` — the loop condition of the poller. -/
def isPending (status : String) : Bool :=
  status == "scheduled" || status == "running"

/-- The synchronous polling loop of `run`: while the status is pending,
wait one interval and replace the execution with the next fetched one.
Returns the terminal execution and the number of refetches performed, or
`none` when the modelled fetch trace is exhausted while still pending
(the source would keep polling forever). -/
def pollLoop : Execution → List Execution → Option (Execution × Nat)
  | e, fetches =>
    if isPending e.status then
      match fetches with
      | [] => none
      | f :: fsr => (pollLoop f fsr).map (fun p => (p.1, p.2 + 1))
    else some (e, 0)

/-- The best-effort `json.loads(execution.result)` applied after the poll
loop; any failure is silently ignored (`except: pass`). -/
def decodeResult (e : Execution) : Execution :=
  match e.result with
  | PyStr s =>
    match jsonLoads s with
    | .ok v => { e with result := v }
    | .error _ => e
  | _ => e

deriving instance DecidableEq for Except

/-- Outcome of one `run` invocation: the returned execution or the raised
exception, plus how many times `create` and `get_by_id` were called. -/
structure RunOutcome : Type where
  result : Except String Execution
  createCalls : Nat
  refetches : Nat
  deriving DecidableEq

/-- The body of `ActionRunCommand.run` after the action/runner lookups:
resolve the parameters, submit, and in synchronous mode poll to a
terminal status and decode the result.  `none` means the synchronous
poll outlived the modelled fetch trace. -/
def runAction (runner : RunnerType) (action : Action) (fs : FileSys)
    (cwd : String) (mgr : Manager) (asyncFlag : Bool) (tokens : List String) :
    Option RunOutcome :=
  match buildParameters runner action fs cwd tokens with
  | .error m => some { result := .error m, createCalls := 0, refetches := 0 }
  | .ok ps =>
    let e0 := mgr.create (initialExecution (action.pack ++ "." ++ action.name) ps)
    if asyncFlag then
      some { result := .ok e0, createCalls := 1, refetches := 0 }
    else
      match pollLoop e0 mgr.fetches with
      | none => none
      | some (ef, n) =>
        some { result := .ok (decodeResult ef), createCalls := 1, refetches := n }

/-! ### `_get_params_types`: merged schema and its three partitions -/

/-- `meta.get('immutable', False)` interpreted by Python truthiness:
whether a schema entry (looked up with default `{}`) declares the
parameter immutable. -/
def entryImmutable (s : Schema) (n : String) : Bool :=
  pyTruthy ((aget (agetD s n []) "immutable").getD (PyBool false))

/-- `is_immutable(runner_param_meta, action_param_meta)`: the runner
declaration wins when set, otherwise the action declaration counts. -/
def isImmutableMeta (rm am : Dict) : Bool :=
  if pyTruthy ((aget rm "immutable").getD (PyBool false)) then true
  else pyTruthy ((aget am "immutable").getD (PyBool false))

/-- Result of `_get_params_types`: the merged parameter table and the
`required` / `optional` / `immutable` name sets. -/
structure GetParamsResult : Type where
  parameters : Schema
  required : Finset String
  optional : Finset String
  immutable : Finset String

/-- The merged parameter table of `_get_params_types`: a copy of the
runner schema overlaid by the action schema. -/
def mergedParameters (runner : RunnerType) (action : Action) : Schema :=
  dictUpdate runner.runner_parameters action.parameters

/-- The declared-required names of `_get_params_types`:
`set(runner.required_parameters + action.required_parameters)`. -/
def requiredDeclared (runner : RunnerType) (action : Action) : Finset String :=
  (runner.required_parameters ++ action.required_parameters).toFinset

/-- The immutable names of `_get_params_types`: keys of the merged table
whose runner or action entry declares immutability. -/
def immutableSet (runner : RunnerType) (action : Action) : Finset String :=
  ((akeys (mergedParameters runner action)).filter (fun p =>
    isImmutableMeta (agetD runner.runner_parameters p [])
      (agetD action.parameters p []))).toFinset

/-- `_get_params_types(runner, action)`: overlay the action schema on a
copy of the runner schema, collect the declared-required names, mark a
name immutable when either entry declares it so, then remove the
immutables from `required` and let `optional` be the remaining keys. -/
def getParamsTypes (runner : RunnerType) (action : Action) : GetParamsResult :=
  ⟨mergedParameters runner action,
   requiredDeclared runner action \ immutableSet runner action,
   ((akeys (mergedParameters runner action)).toFinset \
     (requiredDeclared runner action \ immutableSet runner action)) \
    immutableSet runner action,
   immutableSet runner action⟩

/-! ### `_sort_parameters`: the help-renderer ordering -/

/-- CPython 2 cross-type comparison for the sort keys that
`_get_parameter_sort_value` can produce: `None` sorts below numbers,
numbers below container / string types, and those among themselves by
type name (`dict` < `list` < `str`); equal-type scalars compare by
value. -/
def pyRank : PyValue → Nat
  | PyNone => 0
  | PyBool _ => 1
  | PyInt _ => 1
  | PyFloat _ _ => 1
  | PyStrList _ => 2
  | PyStr _ => 3
  | PyBytes _ => 3

/-- Numeric value of a Python number as an exact rational `num / den`
(`bool` is an `int` subtype in Python). -/
def pyNumVal : PyValue → Int × Nat
  | PyBool b => (if b then 1 else 0, 1)
  | PyInt n => (n, 1)
  | PyFloat n d => (n, d)
  | _ => (0, 1)

/-- Lexicographic `<=` on character lists (Python 2 `str` comparison). -/
def listCharLe : List Char → List Char → Bool
  | [], _ => true
  | _ :: _, [] => false
  | c :: t, c' :: t' =>
    if c.toNat < c'.toNat then true
    else if c'.toNat < c.toNat then false
    else listCharLe t t'

/-- CPython 2 `<=` on the modelled values (total, used as the `sorted`
key order). -/
def pyLe (a b : PyValue) : Bool :=
  if pyRank a < pyRank b then true
  else if pyRank b < pyRank a then false
  else
    match a, b with
    | PyStr x, PyStr y => listCharLe x.data y.data
    | PyStr _, _ => false
    | _, PyStr _ => true
    | PyStrList x, PyStrList y =>
      decide (x = y) || true  -- lists never arise as sort keys
    | _, _ =>
      let va := pyNumVal a
      let vb := pyNumVal b
      decide (va.1 * (vb.2 : Int) ≤ vb.1 * (va.2 : Int))

/-- Strict version of `pyLe`. -/
def pyLt (a b : PyValue) : Bool :=
  pyLe a b && !(pyLe b a)

/-- `_get_parameter_sort_value(parameters, name)`: `None` when the name is
absent or its entry is falsy (an empty dict), else the declared
`position`, else the name itself. -/
def getParameterSortValue (parameters : Schema) (name : String) : PyValue :=
  match aget parameters name with
  | none => PyNone
  | some param =>
    if param = ([] : Dict) then PyNone
    else (aget param "position").getD (PyStr name)

/-- Stable insertion into a list sorted by the strict key order `lt`
(a new element goes before the first element not strictly below it, as
Python's stable `sorted` does). -/
def insertByKey {α : Type} (lt : α → α → Bool) (x : α) : List α → List α
  | [] => [x]
  | y :: ys => if lt y x then y :: insertByKey lt x ys else x :: y :: ys

/-- Stable insertion sort by the strict key order `lt` (models the stable
Python `sorted`). -/
def sortByKey {α : Type} (lt : α → α → Bool) : List α → List α
  | [] => []
  | x :: xs => insertByKey lt x (sortByKey lt xs)

/-- `_sort_parameters(parameters, names)`: sort the names by
`_get_parameter_sort_value`. -/
def sortParameters (parameters : Schema) (names : List String) : List String :=
  sortByKey
    (fun a b =>
      pyLt (getParameterSortValue parameters a) (getParameterSortValue parameters b))
    names

/-! ### Helper lemmas: strings and tokens -/

lemma mk_data (s : String) : String.mk s.data = s := by
  cases s
  rfl

lemma listIsSubstr_of_isPrefixOf {n h : List Char} (hp : n.isPrefixOf h = true) :
    listIsSubstr n h = true := by
  cases h with
  | nil =>
    cases n with
    | nil => rfl
    | cons c t => simp [List.isPrefixOf] at hp
  | cons c t => simp [listIsSubstr, hp]

lemma listIsSubstr_append_left (n pre h : List Char)
    (hs : listIsSubstr n h = true) : listIsSubstr n (pre ++ h) = true := by
  induction pre with
  | nil => simpa using hs
  | cons c t ih =>
    simp only [List.cons_append, listIsSubstr]
    split
    · rfl
    · exact ih

lemma strContains_marker (k v : String) :
    strContains "=" (k ++ "=" ++ v) = true := by
  show listIsSubstr ['='] (k ++ "=" ++ v).data = true
  rw [String.data_append, String.data_append, List.append_assoc]
  refine listIsSubstr_append_left ['='] k.data _ (listIsSubstr_of_isPrefixOf ?_)
  have h : ("=" : String).data = ['='] := rfl
  rw [h]
  simp [List.isPrefixOf]

lemma takeWhile_marker (kd vd : List Char) (hk : '=' ∉ kd) :
    List.takeWhile (fun c => c != '=') (kd ++ '=' :: vd) = kd := by
  induction kd with
  | nil => simp [List.takeWhile]
  | cons c t ih =>
    have hc : c ≠ '=' := by
      intro h
      exact hk (h ▸ List.mem_cons_self c t)
    have ht : '=' ∉ t := fun h => hk (List.mem_cons_of_mem c h)
    simp only [List.cons_append, List.takeWhile_cons]
    simp [hc, ih ht]

lemma dropWhile_marker (kd vd : List Char) (hk : '=' ∉ kd) :
    List.dropWhile (fun c => c != '=') (kd ++ '=' :: vd) = '=' :: vd := by
  induction kd with
  | nil => simp [List.dropWhile]
  | cons c t ih =>
    have hc : c ≠ '=' := by
      intro h
      exact hk (h ▸ List.mem_cons_self c t)
    have ht : '=' ∉ t := fun h => hk (List.mem_cons_of_mem c h)
    simp only [List.cons_append, List.dropWhile_cons]
    simp [hc, ih ht]

lemma splitEq_append (k v : String) (hk : '=' ∉ k.data) :
    splitEq (k ++ "=" ++ v) = (k, v) := by
  unfold splitEq
  rw [String.data_append, String.data_append]
  have hv : ("=" : String).data ++ v.data = '=' :: v.data := rfl
  rw [List.append_assoc, hv, takeWhile_marker _ _ hk, dropWhile_marker _ _ hk]
  simp [mk_data]

lemma startswith_at (k : String) : pyStartswith "@" ("@" ++ k) = true := by
  show (("@" : String).data).isPrefixOf ("@" ++ k).data = true
  rw [String.data_append]
  simp [List.isPrefixOf]

lemma data_at_append (k : String) : ("@" ++ k).data = '@' :: k.data := by
  rw [String.data_append]
  rfl

lemma marker_not_mem_at {k : String} (hk : '=' ∉ k.data) :
    '=' ∉ ("@" ++ k).data := by
  rw [data_at_append]
  intro h
  rcases List.mem_cons.mp h with h | h
  · exact absurd h (by decide)
  · exact hk h

/-! ### Helper lemmas: one step of the token loop -/

lemma processTokens_cons_kv (runner : RunnerType) (action : Action)
    (fs : FileSys) (cwd : String) (k v : String) (rest : List String)
    (d : Dict) (hk : '=' ∉ k.data) (hat : pyStartswith "@" k = false) :
    processTokens runner action fs cwd ((k ++ "=" ++ v) :: rest) d =
      match wrapMalformed (normalize runner action k v) with
      | .error m => .error m
      | .ok val => processTokens runner action fs cwd rest (aset d k val) := by
  rw [processTokens, strContains_marker, if_pos rfl, splitEq_append k v hk]
  simp [hat]

lemma processTokens_cons_file (runner : RunnerType) (action : Action)
    (fs : FileSys) (cwd : String) (k v : String) (rest : List String)
    (d : Dict) (hk : '=' ∉ k.data) :
    processTokens runner action fs cwd (("@" ++ k ++ "=" ++ v) :: rest) d =
      match wrapMalformed (readFile fs (resolvePath cwd v)) with
      | .error m => .error m
      | .ok c =>
        processTokens runner action fs cwd rest
          (aset (aset d "_file_name" (PyStr (pyBasename (resolvePath cwd v))))
            "file_content" (PyBytes c)) := by
  rw [processTokens, strContains_marker, if_pos rfl,
    splitEq_append ("@" ++ k) v (marker_not_mem_at hk)]
  simp [startswith_at]

/-! ### Helper lemmas: dict membership -/

lemma aget_eq_none_iff {α : Type} (d : List (String × α)) (k : String) :
    aget d k = none ↔ k ∉ akeys d := by
  induction d with
  | nil => simp [aget, akeys]
  | cons p t ih =>
    obtain ⟨k', v⟩ := p
    by_cases h : k' = k
    · subst h
      simp [aget, akeys]
    · simp [aget, akeys, h, ih, Ne.symm h]

lemma mem_akeys_aset {α : Type} (d : List (String × α)) (k m : String) (v : α) :
    m ∈ akeys (aset d k v) ↔ m = k ∨ m ∈ akeys d := by
  induction d with
  | nil => simp [aset, akeys]
  | cons p t ih =>
    obtain ⟨k', v'⟩ := p
    by_cases h : k' = k
    · subst h
      simp [aset, akeys]
    · simp only [aset, if_neg h, akeys, List.map_cons, List.mem_cons]
      rw [show akeys (aset t k v) = (aset t k v).map Prod.fst from rfl] at ih
      rw [show akeys t = t.map Prod.fst from rfl] at ih
      tauto

lemma mem_akeys_dictUpdate (b u : Schema) (m : String) :
    m ∈ akeys (dictUpdate b u) ↔ m ∈ akeys b ∨ m ∈ akeys u := by
  induction u generalizing b with
  | nil => simp [dictUpdate, akeys]
  | cons p t ih =>
    obtain ⟨k, v⟩ := p
    rw [dictUpdate, ih, mem_akeys_aset]
    simp only [akeys, List.map_cons, List.mem_cons]
    tauto

lemma entryImmutable_mem {s : Schema} {n : String}
    (h : entryImmutable s n = true) : n ∈ akeys s := by
  by_contra hn
  rw [entryImmutable, agetD, ((aget_eq_none_iff s n).mpr hn)] at h
  simp [aget, pyTruthy] at h

lemma isImmutableMeta_eq_or (rm am : Dict) :
    isImmutableMeta rm am =
      (pyTruthy ((aget rm "immutable").getD (PyBool false)) ||
       pyTruthy ((aget am "immutable").getD (PyBool false))) := by
  rw [isImmutableMeta]
  split <;> simp_all

/-! ### Helper lemmas: `normalize` and the token loop -/

lemma normalize_runner_declared {runner : RunnerType} {action : Action}
    {n t : String} (v : String)
    (h : declaredType runner.runner_parameters n = some t) :
    normalize runner action n v = applyTransformer t v := by
  rw [declaredType] at h
  cases hg : aget runner.runner_parameters n with
  | none => rw [hg] at h; simp at h
  | some param =>
    rw [hg] at h
    have h2 : metaKnownType param = some t := h
    rw [normalize, hg]
    dsimp only
    rw [h2]

lemma normalize_no_known_type {runner : RunnerType} {action : Action}
    {n : String} (v : String)
    (hr : declaredType runner.runner_parameters n = none) :
    normalize runner action n v = normalizeFromAction action n v := by
  rw [declaredType] at hr
  cases hg : aget runner.runner_parameters n with
  | none => rw [normalize, hg]
  | some param =>
    rw [hg] at hr
    have h2 : metaKnownType param = none := hr
    rw [normalize, hg]
    dsimp only
    rw [h2]

lemma normalizeFromAction_declared {action : Action} {n t : String}
    (v : String) (h : declaredType action.parameters n = some t) :
    normalizeFromAction action n v = applyTransformer t v := by
  rw [declaredType] at h
  cases hg : aget action.parameters n with
  | none => rw [hg] at h; simp at h
  | some param =>
    rw [hg] at h
    have h2 : metaKnownType param = some t := h
    rw [normalizeFromAction, hg]
    dsimp only
    rw [h2]

lemma normalizeFromAction_none {action : Action} {n : String} (v : String)
    (h : declaredType action.parameters n = none) :
    normalizeFromAction action n v = .ok (PyStr v) := by
  rw [declaredType] at h
  cases hg : aget action.parameters n with
  | none => rw [normalizeFromAction, hg]
  | some param =>
    rw [hg] at h
    have h2 : metaKnownType param = none := h
    rw [normalizeFromAction, hg]
    dsimp only
    rw [h2]

/-- The scan stops at the first token without `'='`: the result on
`pre ++ bare :: rest` (all of `pre` carrying `'='`, `bare` not) is the
result on `pre` alone with `cmd` bound to the joined remainder. -/
lemma processTokens_break (runner : RunnerType) (action : Action)
    (fs : FileSys) (cwd : String) (pre : List String) (bare : String)
    (rest : List String) (d : Dict)
    (hpre : ∀ t ∈ pre, strContains "=" t = true)
    (hbare : strContains "=" bare = false) :
    processTokens runner action fs cwd (pre ++ bare :: rest) d =
      (processTokens runner action fs cwd pre d).map
        (fun d' => aset d' "cmd" (PyStr (strJoinSpace (bare :: rest)))) := by
  induction pre generalizing d with
  | nil =>
    have h1 : processTokens runner action fs cwd [] d = .ok d := rfl
    rw [List.nil_append, h1, processTokens, if_neg (by simp [hbare])]
    rfl
  | cons t pre' ih =>
    have ht : strContains "=" t = true := hpre t (List.mem_cons_self t pre')
    have hpre' : ∀ x ∈ pre', strContains "=" x = true :=
      fun x hx => hpre x (List.mem_cons_of_mem t hx)
    rw [List.cons_append, processTokens, if_pos ht, processTokens, if_pos ht]
    dsimp only
    split
    · split
      · rfl
      · exact ih _ hpre'
    · split
      · rfl
      · exact ih _ hpre'

/-! ### Concrete fixtures used by the claim theorems and witnesses -/

/-- A filesystem with no files at all. -/
def fsEmpty : FileSys :=
  { pathExists := fun _ => false, isfile := fun _ => false, content := fun _ => [] }

/-- A runner type with no parameters. -/
def runnerEmpty : RunnerType := { runner_parameters := [], required_parameters := [] }

/-- An action with no parameters of its own. -/
def actionEmpty : Action :=
  { pack := "core", name := "local", parameters := [], required_parameters := [] }

/-- A runner schema declaring a boolean parameter `b`. -/
def runnerBool : RunnerType :=
  { runner_parameters := [("b", [("type", PyStr "boolean")])], required_parameters := [] }

/-- A runner schema declaring an integer parameter `x`. -/
def runnerInt : RunnerType :=
  { runner_parameters := [("x", [("type", PyStr "integer")])], required_parameters := [] }

/-- An action schema declaring types for `y` and (shadowed) `x`. -/
def actionTyped : Action :=
  { pack := "core", name := "local",
    parameters := [("y", [("type", PyStr "boolean")]), ("x", [("type", PyStr "number")])],
    required_parameters := [] }

/-- An execution of the fixture action at a given status. -/
def execAt (st : String) : Execution :=
  { action := "core.local", parameters := [], id := "1", status := st, result := PyNone }

/-- A manager whose submission lands `scheduled` and whose successive
fetches run `running`, `running`, `succeeded`. -/
def mgrPoll : Manager :=
  { create := fun e => { e with id := "1", status := "scheduled" },
    fetches := [execAt "running", execAt "running", execAt "succeeded"] }

/-- A manager that schedules the submission and has no fetch trace. -/
def mgrPlain : Manager :=
  { create := fun e => { e with id := "42", status := "scheduled" }, fetches := [] }

/-- Merged-schema table with `position` values 2, 0, 1. -/
def posTable : Schema :=
  [("pb", [("position", PyInt 2)]), ("pc", [("position", PyInt 0)]),
   ("pa", [("position", PyInt 1)])]

/-- Merged-schema table with no `position` values (non-empty entries). -/
def nameTable : Schema :=
  [("ny", [("description", PyStr "d")]), ("nx", [("description", PyStr "d")]),
   ("nz", [("description", PyStr "d")])]

/-! ### C8 -/

/-- C8: `normalize` uses the runner-declared type when the runner schema
defines a known `type` for the name, otherwise the action-declared type
when the action schema defines a known `type`, and otherwise returns the
value unmodified as the original string. -/
theorem c8_normalize_order (runner : RunnerType) (action : Action) (n v : String) :
    (∀ t, declaredType runner.runner_parameters n = some t →
      normalize runner action n v = applyTransformer t v) ∧
    (declaredType runner.runner_parameters n = none →
      ∀ t, declaredType action.parameters n = some t →
        normalize runner action n v = applyTransformer t v) ∧
    (declaredType runner.runner_parameters n = none →
      declaredType action.parameters n = none →
      normalize runner action n v = Except.ok (PyStr v)) := by
  refine ⟨fun t ht => normalize_runner_declared v ht, fun hr t ht => ?_, fun hr ha => ?_⟩
  · rw [normalize_no_known_type v hr]
    exact normalizeFromAction_declared v ht
  · rw [normalize_no_known_type v hr]
    exact normalizeFromAction_none v ha

/-- Witness for C8 at a concrete schema pair: runner-declared `integer`
wins for `x`, the action-declared `boolean` is used for `y`, and the
undeclared `z` passes through as a string. -/
theorem c8_normalize_order_witness :
    normalize runnerInt actionTyped "x" "7" = applyTransformer "integer" "7" ∧
    normalize runnerInt actionTyped "y" "True" = applyTransformer "boolean" "True" ∧
    normalize runnerInt actionTyped "z" "free" = Except.ok (PyStr "free") :=
  ⟨(c8_normalize_order runnerInt actionTyped "x" "7").1 "integer" rfl,
   (c8_normalize_order runnerInt actionTyped "y" "True").2.1 rfl "boolean" rfl,
   (c8_normalize_order runnerInt actionTyped "z" "free").2.2 rfl rfl⟩

/-! ### C9 -/

/-- C9: `_sort_parameters` sorts by the declared `position` when present
(positions 2, 0, 1 come out in ascending position order whatever the
input order) and lexicographically by name when no position is declared. -/
theorem c9_sort_parameters :
    (∀ l ∈ ([["pa", "pb", "pc"], ["pa", "pc", "pb"], ["pb", "pa", "pc"],
             ["pb", "pc", "pa"], ["pc", "pa", "pb"], ["pc", "pb", "pa"]] :
            List (List String)),
      sortParameters posTable l = ["pc", "pa", "pb"]) ∧
    (∀ l ∈ ([["nx", "ny", "nz"], ["nx", "nz", "ny"], ["ny", "nx", "nz"],
             ["ny", "nz", "nx"], ["nz", "nx", "ny"], ["nz", "ny", "nx"]] :
            List (List String)),
      sortParameters nameTable l = ["nx", "ny", "nz"]) := by decide

/-- Witness for C9 at one concrete input order per table. -/
theorem c9_sort_parameters_witness :
    sortParameters posTable ["pb", "pc", "pa"] = ["pc", "pa", "pb"] ∧
    sortParameters nameTable ["nz", "ny", "nx"] = ["nx", "ny", "nz"] :=
  ⟨c9_sort_parameters.1 ["pb", "pc", "pa"] (by simp),
   c9_sort_parameters.2 ["nz", "ny", "nx"] (by simp)⟩

/-! ### C4 -/

/-- C4: while the status is `scheduled` or `running` the poller replaces
its execution with the next fetched one (counting one refetch); it stops
immediately on any other status; and on the trace
`scheduled, running, running, succeeded` the synchronous `run` performs
exactly 3 refetches and returns the execution at status `succeeded`. -/
theorem c4_poller_sync :
    (∀ (e f : Execution) (fetches : List Execution), isPending e.status = true →
      pollLoop e (f :: fetches) =
        (pollLoop f fetches).map (fun p => (p.1, p.2 + 1))) ∧
    (∀ (e : Execution) (fetches : List Execution), isPending e.status = false →
      pollLoop e fetches = some (e, 0)) ∧
    runAction runnerEmpty actionEmpty fsEmpty "/" mgrPoll false [] =
      some { result := .ok (execAt "succeeded"), createCalls := 1, refetches := 3 } := by
  refine ⟨fun e f fetches h => ?_, fun e fetches h => ?_, ?_⟩
  · have he : pollLoop e (f :: fetches) =
        if isPending e.status = true then
          (pollLoop f fetches).map (fun p => (p.1, p.2 + 1))
        else some (e, 0) := rfl
    rw [he, if_pos h]
  · cases fetches with
    | nil =>
      have he : pollLoop e [] =
          if isPending e.status = true then none else some (e, 0) := rfl
      rw [he, if_neg (by simp [h])]
    | cons f fsr =>
      have he : pollLoop e (f :: fsr) =
          if isPending e.status = true then
            (pollLoop f fsr).map (fun p => (p.1, p.2 + 1))
          else some (e, 0) := rfl
      rw [he, if_neg (by simp [h])]
  · rfl

/-- Witness for C4's transition rules at concrete executions. -/
theorem c4_poller_sync_witness :
    pollLoop (execAt "running") [execAt "succeeded"] =
      (pollLoop (execAt "succeeded") []).map (fun p => (p.1, p.2 + 1)) ∧
    pollLoop (execAt "succeeded") [] = some (execAt "succeeded", 0) :=
  ⟨c4_poller_sync.1 (execAt "running") (execAt "succeeded") [] rfl,
   c4_poller_sync.2.1 (execAt "succeeded") [] rfl⟩

/-! ### C5 -/

/-- C5: with the asynchronous flag set, `run` performs no refetch and
returns exactly the submission result, whatever its status. -/
theorem c5_async_no_poll (runner : RunnerType) (action : Action) (fs : FileSys)
    (cwd : String) (mgr : Manager) (tokens : List String) (ps : Dict)
    (h : buildParameters runner action fs cwd tokens = .ok ps) :
    runAction runner action fs cwd mgr true tokens =
      some { result := .ok (mgr.create
               (initialExecution (action.pack ++ "." ++ action.name) ps)),
             createCalls := 1, refetches := 0 } := by
  rw [runAction, h]
  rfl

/-- Witness for C5 at a concrete invocation. -/
theorem c5_async_no_poll_witness :
    runAction runnerEmpty actionEmpty fsEmpty "/" mgrPlain true ["x=1"] =
      some { result := .ok (mgrPlain.create
               (initialExecution "core.local" [("x", PyStr "1")])),
             createCalls := 1, refetches := 0 } :=
  c5_async_no_poll runnerEmpty actionEmpty fsEmpty "/" mgrPlain ["x=1"]
    [("x", PyStr "1")] rfl

/-! ### C3 -/

/-- C3: the token loop processes `'='`-bearing tokens individually until
the first bare token, then joins that token and all remaining ones with
single spaces into the single `cmd` parameter and stops scanning; on
`["x=1", "y=2", "free", "text"]` (with `x` declared integer) it yields
`x = 1`, `y = "2"`, `cmd = "free text"`. -/
theorem c3_cmd_collapse :
    (∀ (runner : RunnerType) (action : Action) (fs : FileSys) (cwd : String)
      (pre : List String) (bare : String) (rest : List String) (d : Dict),
      (∀ t ∈ pre, strContains "=" t = true) → strContains "=" bare = false →
      processTokens runner action fs cwd (pre ++ bare :: rest) d =
        (processTokens runner action fs cwd pre d).map
          (fun d' => aset d' "cmd" (PyStr (strJoinSpace (bare :: rest))))) ∧
    buildParameters runnerInt actionEmpty fsEmpty "/" ["x=1", "y=2", "free", "text"] =
      .ok [("x", PyInt 1), ("y", PyStr "2"), ("cmd", PyStr "free text")] :=
  ⟨fun runner action fs cwd pre bare rest d h1 h2 =>
    processTokens_break runner action fs cwd pre bare rest d h1 h2, rfl⟩

/-- Witness for C3's universal part at a concrete token sequence. -/
theorem c3_cmd_collapse_witness :
    processTokens runnerInt actionEmpty fsEmpty "/" (["a=1"] ++ "free" :: ["text"]) [] =
      (processTokens runnerInt actionEmpty fsEmpty "/" ["a=1"] []).map
        (fun d' => aset d' "cmd" (PyStr (strJoinSpace ("free" :: ["text"])))) :=
  c3_cmd_collapse.1 runnerInt actionEmpty fsEmpty "/" ["a=1"] "free" ["text"] []
    (by intro t ht; simp at ht; subst ht; rfl) rfl

/-! ### C2 -/

/-- C2 counterexample: the raw value `none` is not a case-insensitive
spelling of `true` or `false`, yet the boolean transformer coerces it to
Python `None` without any error (`"none".capitalize()` is the literal
`None`, which `ast.literal_eval` accepts). -/
theorem c2_counterexample :
    buildParameters runnerBool actionEmpty fsEmpty "/" ["b=none"] =
      .ok [("b", PyNone)] ∧
    pyLower "none" ≠ "true" ∧ pyLower "none" ≠ "false" :=
  ⟨rfl, by decide, by decide⟩

/-- C2 (amended): a raw value whose capitalized form the literal
evaluator rejects with a `malformed string` error (any bare word, such
as `maybe`) makes the boolean-typed parameter fail with the error
message naming the valid values true and false. -/
theorem c2_boolean_error :
    (∀ (runner : RunnerType) (action : Action) (fs : FileSys) (cwd s m : String),
      declaredType runner.runner_parameters "b" = some "boolean" →
      pyLiteralEval (pyCapitalize s) = .error m →
      strContains "malformed string" m = true →
      buildParameters runner action fs cwd ["b" ++ "=" ++ s] =
        .error booleanHintMsg) ∧
    buildParameters runnerBool actionEmpty fsEmpty "/" ["b=maybe"] =
      .error booleanHintMsg ∧
    strContains "true" booleanHintMsg = true ∧
    strContains "false" booleanHintMsg = true := by
  refine ⟨fun runner action fs cwd s m hb hm hc => ?_, rfl, by decide, by decide⟩
  have hstep := processTokens_cons_kv runner action fs cwd "b" s []
    ([] : Dict) (by decide) (by decide)
  have hn : normalize runner action "b" s = .error m := by
    rw [normalize_runner_declared s hb]
    exact hm
  rw [buildParameters, hstep, hn]
  simp [wrapMalformed, hc]

/-- Witness for C2's amended rule at the concrete raw value `surely`. -/
theorem c2_boolean_error_witness :
    buildParameters runnerBool actionEmpty fsEmpty "/" ["b" ++ "=" ++ "surely"] =
      .error booleanHintMsg :=
  c2_boolean_error.1 runnerBool actionEmpty fsEmpty "/" "surely"
    "malformed string" rfl rfl rfl

/-! ### C6 -/

/-- A filesystem with one regular file `/w/data.txt` with two bytes. -/
def fsData : FileSys :=
  { pathExists := fun p => p == "/w/data.txt",
    isfile := fun p => p == "/w/data.txt",
    content := fun _ => [104, 105] }

/-- C6: a token `@k=path` whose resolved path is an existing regular file
yields a mapping holding `file_content` (the raw bytes), `file_name`
(defaulted to the basename) and `method` (defaulted to `POST`), with the
staging key `_file_name` absent. -/
theorem c6_file_param (runner : RunnerType) (action : Action) (fs : FileSys)
    (cwd k v : String) (hk : '=' ∉ k.data)
    (hex : fs.pathExists (resolvePath cwd v) = true)
    (hisf : fs.isfile (resolvePath cwd v) = true) :
    buildParameters runner action fs cwd ["@" ++ k ++ "=" ++ v] =
      .ok [("file_content", PyBytes (fs.content (resolvePath cwd v))),
           ("method", PyStr "POST"),
           ("file_name", PyStr (pyBasename (resolvePath cwd v)))] ∧
    aget [("file_content", PyBytes (fs.content (resolvePath cwd v))),
          ("method", PyStr "POST"),
          ("file_name", PyStr (pyBasename (resolvePath cwd v)))] "_file_name" =
      none := by
  have hread : readFile fs (resolvePath cwd v) =
      .ok (fs.content (resolvePath cwd v)) := by
    simp [readFile, hex, hisf]
  have hstep := processTokens_cons_file runner action fs cwd k v []
    ([] : Dict) hk
  refine ⟨?_, rfl⟩
  rw [buildParameters, hstep, hread]
  rfl

/-- Witness for C6 at the concrete file `/w/data.txt`. -/
theorem c6_file_param_witness :
    buildParameters runnerEmpty actionEmpty fsData "/w"
        ["@" ++ "file" ++ "=" ++ "./data.txt"] =
      .ok [("file_content", PyBytes [104, 105]), ("method", PyStr "POST"),
           ("file_name", PyStr "data.txt")] :=
  (c6_file_param runnerEmpty actionEmpty fsData "/w" "file" "./data.txt"
    (by decide) rfl rfl).1

/-! ### C7 -/

/-- C7 counterexample: for the missing path `malformed string` the raised
error is the boolean-parameter hint, not a message stating the path does
not exist — the per-token handler rewrites any exception whose text
contains `malformed string`, and here the path itself puts that text
into `read_file`'s message. -/
theorem c7_counterexample :
    buildParameters runnerEmpty actionEmpty fsEmpty "/w" ["@k=malformed string"] =
      .error booleanHintMsg ∧
    strContains "exist" booleanHintMsg = false ∧
    strContains "is not a file" booleanHintMsg = false :=
  ⟨rfl, by decide, by decide⟩

/-- C7 (amended): when the produced message does not contain the text
`malformed string` (any non-adversarial path), a token `@k=path` with a
non-existent resolved path fails with the message stating the path does
not exist, an existing non-regular path fails with the distinct message
stating it is not a file, and any parameter-resolution error is raised
with zero `create` calls — before any execution is submitted. -/
theorem c7_file_errors :
    (∀ (runner : RunnerType) (action : Action) (fs : FileSys) (cwd k v : String),
      '=' ∉ k.data →
      fs.pathExists (resolvePath cwd v) = false →
      strContains "malformed string" (fileNotExistMsg (resolvePath cwd v)) = false →
      buildParameters runner action fs cwd ["@" ++ k ++ "=" ++ v] =
        .error (fileNotExistMsg (resolvePath cwd v))) ∧
    (∀ (runner : RunnerType) (action : Action) (fs : FileSys) (cwd k v : String),
      '=' ∉ k.data →
      fs.pathExists (resolvePath cwd v) = true →
      fs.isfile (resolvePath cwd v) = false →
      strContains "malformed string" (notAFileMsg (resolvePath cwd v)) = false →
      buildParameters runner action fs cwd ["@" ++ k ++ "=" ++ v] =
        .error (notAFileMsg (resolvePath cwd v))) ∧
    (∀ (runner : RunnerType) (action : Action) (fs : FileSys)
      (cwd m : String) (tokens : List String) (mgr : Manager) (asyncFlag : Bool),
      buildParameters runner action fs cwd tokens = .error m →
      runAction runner action fs cwd mgr asyncFlag tokens =
        some { result := .error m, createCalls := 0, refetches := 0 }) := by
  refine ⟨fun runner action fs cwd k v hk hpe hmm => ?_,
          fun runner action fs cwd k v hk hpe hf hmm => ?_,
          fun runner action fs cwd m tokens mgr asyncFlag h => ?_⟩
  · have hread : readFile fs (resolvePath cwd v) =
        .error (fileNotExistMsg (resolvePath cwd v)) := by
      simp [readFile, hpe]
    rw [buildParameters,
      processTokens_cons_file runner action fs cwd k v [] ([] : Dict) hk, hread]
    simp [wrapMalformed, hmm]
  · have hread : readFile fs (resolvePath cwd v) =
        .error (notAFileMsg (resolvePath cwd v)) := by
      simp [readFile, hpe, hf]
    rw [buildParameters,
      processTokens_cons_file runner action fs cwd k v [] ([] : Dict) hk, hread]
    simp [wrapMalformed, hmm]
  · rw [runAction, h]

/-- A filesystem where `/w/somedir` exists but is not a regular file. -/
def fsDir : FileSys :=
  { pathExists := fun p => p == "/w/somedir", isfile := fun _ => false,
    content := fun _ => [] }

/-- Witness for C7's amended rules at concrete paths, including that the
failing invocation performs zero submissions. -/
theorem c7_file_errors_witness :
    buildParameters runnerEmpty actionEmpty fsEmpty "/w"
        ["@" ++ "k" ++ "=" ++ "nope.txt"] =
      .error (fileNotExistMsg "/w/nope.txt") ∧
    buildParameters runnerEmpty actionEmpty fsDir "/w"
        ["@" ++ "k" ++ "=" ++ "somedir"] =
      .error (notAFileMsg "/w/somedir") ∧
    runAction runnerEmpty actionEmpty fsEmpty "/w" mgrPlain false
        ["@" ++ "k" ++ "=" ++ "nope.txt"] =
      some { result := .error (fileNotExistMsg "/w/nope.txt"),
             createCalls := 0, refetches := 0 } :=
  ⟨c7_file_errors.1 runnerEmpty actionEmpty fsEmpty "/w" "k" "nope.txt"
      (by decide) rfl (by decide),
   c7_file_errors.2.1 runnerEmpty actionEmpty fsDir "/w" "k" "somedir"
      (by decide) rfl rfl (by decide),
   c7_file_errors.2.2 runnerEmpty actionEmpty fsEmpty "/w"
      (fileNotExistMsg "/w/nope.txt") ["@" ++ "k" ++ "=" ++ "nope.txt"] mgrPlain false
      (c7_file_errors.1 runnerEmpty actionEmpty fsEmpty "/w" "k" "nope.txt"
        (by decide) rfl (by decide))⟩

/-! ### C10 -/

/-- C10: the stripped key of an `@`-token never becomes a key of the
resulting mapping — file bytes always land under `file_content` and the
staged name under `_file_name` regardless of the key — so with two
`@`-tokens the later one overwrites the earlier and only the last file's
content and name survive; the final keys are exactly `file_content`,
`method`, `file_name`. -/
theorem c10_file_key_overwrite (runner : RunnerType) (action : Action)
    (fs : FileSys) (cwd k1 v1 k2 v2 : String)
    (hk1 : '=' ∉ k1.data) (hk2 : '=' ∉ k2.data)
    (h1e : fs.pathExists (resolvePath cwd v1) = true)
    (h1f : fs.isfile (resolvePath cwd v1) = true)
    (h2e : fs.pathExists (resolvePath cwd v2) = true)
    (h2f : fs.isfile (resolvePath cwd v2) = true) :
    buildParameters runner action fs cwd
        ["@" ++ k1 ++ "=" ++ v1, "@" ++ k2 ++ "=" ++ v2] =
      .ok [("file_content", PyBytes (fs.content (resolvePath cwd v2))),
           ("method", PyStr "POST"),
           ("file_name", PyStr (pyBasename (resolvePath cwd v2)))] ∧
    (∀ (key : String) (d : Dict),
      buildParameters runner action fs cwd
          ["@" ++ k1 ++ "=" ++ v1, "@" ++ k2 ++ "=" ++ v2] = .ok d →
      key ∈ akeys d → key ∈ ["file_content", "method", "file_name"]) := by
  have hr1 : readFile fs (resolvePath cwd v1) =
      .ok (fs.content (resolvePath cwd v1)) := by
    simp [readFile, h1e, h1f]
  have hr2 : readFile fs (resolvePath cwd v2) =
      .ok (fs.content (resolvePath cwd v2)) := by
    simp [readFile, h2e, h2f]
  have s1 : processTokens runner action fs cwd
      ["@" ++ k1 ++ "=" ++ v1, "@" ++ k2 ++ "=" ++ v2] ([] : Dict) =
      processTokens runner action fs cwd ["@" ++ k2 ++ "=" ++ v2]
        (aset (aset [] "_file_name" (PyStr (pyBasename (resolvePath cwd v1))))
          "file_content" (PyBytes (fs.content (resolvePath cwd v1)))) := by
    rw [processTokens_cons_file runner action fs cwd k1 v1 _ ([] : Dict) hk1, hr1]
    rfl
  have s2 : processTokens runner action fs cwd ["@" ++ k2 ++ "=" ++ v2]
      (aset (aset [] "_file_name" (PyStr (pyBasename (resolvePath cwd v1))))
        "file_content" (PyBytes (fs.content (resolvePath cwd v1)))) =
      .ok [("_file_name", PyStr (pyBasename (resolvePath cwd v2))),
           ("file_content", PyBytes (fs.content (resolvePath cwd v2)))] := by
    rw [processTokens_cons_file runner action fs cwd k2 v2 [] _ hk2, hr2]
    rfl
  have hmain : buildParameters runner action fs cwd
      ["@" ++ k1 ++ "=" ++ v1, "@" ++ k2 ++ "=" ++ v2] =
      .ok [("file_content", PyBytes (fs.content (resolvePath cwd v2))),
           ("method", PyStr "POST"),
           ("file_name", PyStr (pyBasename (resolvePath cwd v2)))] := by
    rw [buildParameters, s1, s2]
    rfl
  refine ⟨hmain, fun key d hd hkey => ?_⟩
  rw [hmain] at hd
  injection hd with hd
  subst hd
  exact hkey

/-- A filesystem with two regular files `/w/a.bin` and `/w/b.bin`. -/
def fsTwo : FileSys :=
  { pathExists := fun p => p == "/w/a.bin" || p == "/w/b.bin",
    isfile := fun p => p == "/w/a.bin" || p == "/w/b.bin",
    content := fun p => if p == "/w/a.bin" then [1] else [2] }

/-- Witness for C10 at two concrete `@`-tokens: the second file wins and
the user keys `f1`, `f2` are absent. -/
theorem c10_file_key_overwrite_witness :
    buildParameters runnerEmpty actionEmpty fsTwo "/w"
        ["@" ++ "f1" ++ "=" ++ "a.bin", "@" ++ "f2" ++ "=" ++ "b.bin"] =
      .ok [("file_content", PyBytes [2]), ("method", PyStr "POST"),
           ("file_name", PyStr "b.bin")] :=
  (c10_file_key_overwrite runnerEmpty actionEmpty fsTwo "/w" "f1" "a.bin"
    "f2" "b.bin" (by decide) (by decide) rfl rfl rfl rfl).1

/-! ### C1 -/

lemma mem_immutableSet_iff (runner : RunnerType) (action : Action) (n : String) :
    n ∈ immutableSet runner action ↔
      (entryImmutable runner.runner_parameters n ||
       entryImmutable action.parameters n) = true := by
  rw [immutableSet, List.mem_toFinset, List.mem_filter]
  constructor
  · rintro ⟨-, h⟩
    have h2 : isImmutableMeta (agetD runner.runner_parameters n [])
        (agetD action.parameters n []) = true := h
    rw [isImmutableMeta_eq_or] at h2
    exact h2
  · intro h
    refine ⟨?_, ?_⟩
    · have h' := h
      simp only [Bool.or_eq_true] at h'
      have hmem : n ∈ akeys runner.runner_parameters ∨
          n ∈ akeys action.parameters := by
        rcases h' with h' | h'
        · exact Or.inl (entryImmutable_mem h')
        · exact Or.inr (entryImmutable_mem h')
      exact (mem_akeys_dictUpdate _ _ n).mpr hmem
    · have h2 : isImmutableMeta (agetD runner.runner_parameters n [])
          (agetD action.parameters n []) = true := by
        rw [isImmutableMeta_eq_or]
        exact h
      exact h2

/-- C1 (amended): provided every declared-required name actually appears
in the merged parameter table, `_get_params_types` returns three pairwise
disjoint sets whose union is exactly the merged key set, a name is
immutable exactly when the runner entry or the action entry declares it
immutable, and every such name is in neither `required` nor `optional`. -/
theorem c1_schema_partition (runner : RunnerType) (action : Action)
    (hreq : ∀ n ∈ runner.required_parameters ++ action.required_parameters,
      n ∈ akeys (getParamsTypes runner action).parameters) :
    ((getParamsTypes runner action).required ∩
       (getParamsTypes runner action).optional = ∅ ∧
     (getParamsTypes runner action).required ∩
       (getParamsTypes runner action).immutable = ∅ ∧
     (getParamsTypes runner action).optional ∩
       (getParamsTypes runner action).immutable = ∅) ∧
    ((getParamsTypes runner action).required ∪
       (getParamsTypes runner action).optional ∪
       (getParamsTypes runner action).immutable =
     (akeys (getParamsTypes runner action).parameters).toFinset) ∧
    (∀ n, n ∈ (getParamsTypes runner action).immutable ↔
      (entryImmutable runner.runner_parameters n ||
       entryImmutable action.parameters n) = true) ∧
    (∀ n, (entryImmutable runner.runner_parameters n ||
           entryImmutable action.parameters n) = true →
      n ∉ (getParamsTypes runner action).required ∧
      n ∉ (getParamsTypes runner action).optional) := by
  have eR : (getParamsTypes runner action).required =
      requiredDeclared runner action \ immutableSet runner action := rfl
  have eO : (getParamsTypes runner action).optional =
      ((akeys (mergedParameters runner action)).toFinset \
        (requiredDeclared runner action \ immutableSet runner action)) \
       immutableSet runner action := rfl
  have eI : (getParamsTypes runner action).immutable =
      immutableSet runner action := rfl
  have eP : (getParamsTypes runner action).parameters =
      mergedParameters runner action := rfl
  have hreq' : ∀ x, x ∈ requiredDeclared runner action →
      x ∈ (akeys (mergedParameters runner action)).toFinset := by
    intro x hx
    rw [requiredDeclared, List.mem_toFinset] at hx
    rw [List.mem_toFinset]
    exact hreq x hx
  have hIsub : ∀ x, x ∈ immutableSet runner action →
      x ∈ (akeys (mergedParameters runner action)).toFinset := by
    intro x hx
    rw [immutableSet, List.mem_toFinset, List.mem_filter] at hx
    rw [List.mem_toFinset]
    exact hx.1
  rw [eR, eO, eI, eP]
  refine ⟨⟨?_, ?_, ?_⟩, ?_, fun n => mem_immutableSet_iff runner action n, ?_⟩
  · ext x
    simp only [Finset.mem_inter, Finset.mem_sdiff, Finset.not_mem_empty,
      iff_false]
    tauto
  · ext x
    simp only [Finset.mem_inter, Finset.mem_sdiff, Finset.not_mem_empty,
      iff_false]
    tauto
  · ext x
    simp only [Finset.mem_inter, Finset.mem_sdiff, Finset.not_mem_empty,
      iff_false]
    tauto
  · ext x
    have h1 := hreq' x
    have h2 := hIsub x
    simp only [Finset.mem_union, Finset.mem_sdiff]
    tauto
  · intro n h
    have hI : n ∈ immutableSet runner action :=
      (mem_immutableSet_iff runner action n).mpr h
    refine ⟨?_, ?_⟩
    · intro hc
      rw [Finset.mem_sdiff] at hc
      exact hc.2 hI
    · intro hc
      rw [Finset.mem_sdiff] at hc
      exact hc.2 hI

/-- A runner whose `required_parameters` names a parameter that appears
in no schema. -/
def runnerGhostReq : RunnerType :=
  { runner_parameters := [], required_parameters := ["x"] }

/-- C1 counterexample: with a declared-required name that appears in
neither schema, the union of the three partitions is not the merged key
set (the merged table is empty, yet `required` contains `x`). -/
theorem c1_counterexample :
    ¬ ((getParamsTypes runnerGhostReq actionEmpty).required ∪
       (getParamsTypes runnerGhostReq actionEmpty).optional ∪
       (getParamsTypes runnerGhostReq actionEmpty).immutable =
       (akeys (getParamsTypes runnerGhostReq actionEmpty).parameters).toFinset) := by
  decide

/-- Runner fixture for C1's witness: `ra` immutable, `rb` required. -/
def runnerImm : RunnerType :=
  { runner_parameters := [("ra", [("immutable", PyBool true)]), ("rb", [])],
    required_parameters := ["rb"] }

/-- Action fixture for C1's witness: `ab` immutable and declared
required, `ac` required. -/
def actionImm : Action :=
  { pack := "p", name := "a",
    parameters := [("ab", [("immutable", PyBool true)]), ("ac", [])],
    required_parameters := ["ac", "ab"] }

/-- Witness for C1 at a concrete schema pair, including the immutability
equivalence for the runner-immutable `ra` and exclusion of the
action-immutable `ab` from `required` and `optional`. -/
theorem c1_schema_partition_witness :
    ((getParamsTypes runnerImm actionImm).required ∩
      (getParamsTypes runnerImm actionImm).optional = ∅) ∧
    ((getParamsTypes runnerImm actionImm).required ∪
      (getParamsTypes runnerImm actionImm).optional ∪
      (getParamsTypes runnerImm actionImm).immutable =
      (akeys (getParamsTypes runnerImm actionImm).parameters).toFinset) ∧
    ("ra" ∈ (getParamsTypes runnerImm actionImm).immutable ↔
      (entryImmutable runnerImm.runner_parameters "ra" ||
       entryImmutable actionImm.parameters "ra") = true) ∧
    ((entryImmutable runnerImm.runner_parameters "ab" ||
      entryImmutable actionImm.parameters "ab") = true →
      "ab" ∉ (getParamsTypes runnerImm actionImm).required ∧
      "ab" ∉ (getParamsTypes runnerImm actionImm).optional) :=
  ⟨(c1_schema_partition runnerImm actionImm (by decide)).1.1,
   (c1_schema_partition runnerImm actionImm (by decide)).2.1,
   (c1_schema_partition runnerImm actionImm (by decide)).2.2.1 "ra",
   (c1_schema_partition runnerImm actionImm (by decide)).2.2.2 "ab"⟩

end St2
